import Mathlib

/-!
Shallow embedding of `app.py` (pump-signal scanner).

Conventions of the embedding:
* pandas/numpy float values are modelled as exact rationals `ℚ`; a value that
  can be NaN is modelled as `Option ℚ` with `none` standing for NaN.
* Square roots (the Bollinger standard deviation) live in `ℝ`
  (`Real.sqrt` of the rational rolling variance).
* Comparisons against NaN are `False`, as in numpy (`NaN >= x` is `False`,
  `NaN > x` is `False`).
* A Python exception (out-of-bounds `iloc`, missing column, attribute error,
  a failed `requests.get`) is modelled by an `Option`/`Except` result being
  `none`/`error`.
* Division by an exact float zero would produce `inf`/`NaN`; it is modelled
  as `none` here.  Every place where this matters is commented; no claim
  depends on an `inf` arising.
-/

namespace PumpScanner

/-! ### Configuration constants (app.py lines 6-15) -/

def PAIRS_PER_SCAN : ℕ := 20
def LOOKBACK : ℕ := 120
def MIN_ABS_VOLUME_USD : ℚ := 3000
def MIN_LIQ_USD : ℚ := 30000
def ROC_WINDOW : ℕ := 5
def VOL_MULT_CONFIRM : ℚ := 3/2
def MIN_SIGNALS_REQUIRED : ℕ := 2

/-! ### Generic pandas-style helpers -/

/-- `xs.iloc[-k]` for a positive offset `k`: `none` models the `IndexError`
raised when the series is shorter than `k`. -/
def ilocb (xs : List α) (k : ℕ) : Option α :=
  if k ≤ xs.length then xs.get? (xs.length - k) else none

/-- Keep the last `n` elements (`df[-n:]` slicing). -/
def lastN (n : ℕ) (xs : List α) : List α := xs.drop (xs.length - n)

/-- Turn a list of optional values into an optional list: `some` exactly when
no entry is NaN. -/
def allSome : List (Option α) → Option (List α)
  | [] => some []
  | none :: _ => none
  | some a :: t => (allSome t).map (a :: ·)

/-- `series.rolling(n).f()` with pandas defaults (`min_periods = n`): entry `i`
is defined exactly when the trailing window of `n` slots exists (`n ≤ i+1`)
and contains no NaN, and is then `f` of that window. -/
def rollingApply (n : ℕ) (f : List ℚ → ℚ) (xs : List (Option ℚ)) : List (Option ℚ) :=
  (List.range xs.length).map fun i =>
    if n ≤ i + 1 then
      match allSome ((xs.take (i + 1)).drop (i + 1 - n)) with
      | some w => some (f w)
      | none => none
    else none

/-- Mean of a rolling window of size `n`. -/
def meanF (n : ℕ) (l : List ℚ) : ℚ := l.sum / (n : ℚ)

/-- pandas sample variance of a window of size `n` (`ddof = 1`, the
`.std()` default): sum of squared deviations divided by `n - 1`. -/
def varSampF (n : ℕ) (l : List ℚ) : ℚ :=
  (l.map (fun x => (x - l.sum / (n : ℚ)) ^ 2)).sum / ((n : ℚ) - 1)

/-- Max of a window (windows are nonempty, the default covers `[]` only). -/
def maxF (l : List ℚ) : ℚ := l.foldr max 0

/-- `series.diff()`: first entry NaN, then successive differences. -/
def diffL : List ℚ → List (Option ℚ)
  | [] => []
  | x :: t => none :: List.zipWith (fun a b => some (a - b)) t (x :: t)

/-- Elementwise combination of two NaN-able series (NaN propagates). -/
def omap2 (f : ℚ → ℚ → ℚ) : Option ℚ → Option ℚ → Option ℚ
  | some a, some b => some (f a b)
  | _, _ => none

/-- Elementwise division; NaN propagates, and an exact zero denominator
(which would give float `inf`/`NaN`) is modelled as NaN. -/
def odiv : Option ℚ → Option ℚ → Option ℚ
  | some a, some b => if b = 0 then none else some (a / b)
  | _, _ => none

/-! ### Indicator library (app.py lines 34-53) -/

/-- `ewm(span=n, adjust=False).mean()` recursion after the seed. -/
def emaAux (a : ℚ) : ℚ → List ℚ → List ℚ
  | _, [] => []
  | prev, x :: t =>
    let e := (1 - a) * prev + a * x
    e :: emaAux a e t

/-- `ema(series, n)`: smoothing factor `α = 2/(n+1)`, seeded from the first
value (`adjust=False`). -/
def ema (xs : List ℚ) (n : ℕ) : List ℚ :=
  match xs with
  | [] => []
  | x :: t => x :: emaAux (2 / ((n : ℚ) + 1)) x t

/-- Rolling mean of a NaN-free series. -/
def rollingMean (n : ℕ) (xs : List ℚ) : List (Option ℚ) :=
  rollingApply n (meanF n) (xs.map some)

/-- Rolling sample variance of a NaN-free series (what `.std()` squares to). -/
def rollingVarSamp (n : ℕ) (xs : List ℚ) : List (Option ℚ) :=
  rollingApply n (varSampF n) (xs.map some)

/-- `series.rolling(n).std()`: square root (in `ℝ`) of the sample variance. -/
noncomputable def rollingStd (n : ℕ) (xs : List ℚ) : List (Option ℝ) :=
  (rollingVarSamp n xs).map (Option.map fun q : ℚ => Real.sqrt (q : ℝ))

/-- Elementwise combination for real NaN-able series. -/
def omap2R (f : ℝ → ℝ → ℝ) : Option ℝ → Option ℝ → Option ℝ
  | some a, some b => some (f a b)
  | _, _ => none

/-- Elementwise real division with the zero-denominator case (float
`inf`/`NaN`) modelled as NaN. -/
noncomputable def odivR : Option ℝ → Option ℝ → Option ℝ
  | some a, some b => if b = 0 then none else some (a / b)
  | _, _ => none

/-- `bollinger(series, n, k)`: `(middle, upper, lower)` with
`middle` the rolling mean, `upper/lower = middle ± k·std` where `std` is the
pandas rolling sample standard deviation. -/
noncomputable def bollinger (xs : List ℚ) (n : ℕ) (k : ℚ) :
    List (Option ℝ) × List (Option ℝ) × List (Option ℝ) :=
  let ma : List (Option ℝ) := (rollingMean n xs).map (Option.map (fun q : ℚ => (q : ℝ)))
  let sd := rollingStd n xs
  (ma,
   List.zipWith (omap2R fun m s => m + (k : ℝ) * s) ma sd,
   List.zipWith (omap2R fun m s => m - (k : ℝ) * s) ma sd)

/-- `delta.clip(lower=0)` on a NaN-able series. -/
def clipLow0 (xs : List (Option ℚ)) : List (Option ℚ) :=
  xs.map (Option.map fun d => max d 0)

/-- The `avg_loss` series of `rsi` after `replace(0, 1e-9)`: rolling mean of
the clipped negative deltas, with an exact zero replaced by the sentinel
`1e-9`. -/
def rsiAvgLoss (xs : List ℚ) (n : ℕ) : List (Option ℚ) :=
  (rollingApply n (meanF n) (clipLow0 ((diffL xs).map (Option.map (- ·))))).map
    (Option.map fun q => if q = 0 then 1 / 1000000000 else q)

/-- The `avg_gain` series of `rsi`. -/
def rsiAvgGain (xs : List ℚ) (n : ℕ) : List (Option ℚ) :=
  rollingApply n (meanF n) (clipLow0 (diffL xs))

/-- `rsi(series, n)`: `100 - 100/(1+rs)` with `rs = avg_gain/avg_loss`.
The divisor `1 + rs` is never zero because `rs ≥ 0` wherever defined. -/
def rsi (xs : List ℚ) (n : ℕ) : List (Option ℚ) :=
  (List.zipWith odiv (rsiAvgGain xs n) (rsiAvgLoss xs n)).map
    (Option.map fun rs => 100 - 100 / (1 + rs))

/-- `np.sign` on a rational. -/
def signQ (q : ℚ) : ℚ := if q < 0 then -1 else if 0 < q then 1 else 0

/-- `obv(close, volume)`: cumulative sum of volume signed by the price change
(`diff().fillna(0)`, so the first bar contributes zero). -/
def obv (close volume : List ℚ) : List ℚ :=
  (List.zipWith (fun d v => signQ d * v)
      ((diffL close).map (fun o => o.getD 0)) volume).scanl (· + ·) 0 |>.drop 1

/-! ### Data model: candles, pair snapshots, enriched frames -/

/-- One candle after the column renaming in `get_candles`
(`t,o,h,l,c,v → time, open, high, low, close, volume`; `open` is a Lean
keyword, hence `opn`). -/
structure Candle where
  time : ℤ
  opn : ℚ
  high : ℚ
  low : ℚ
  close : ℚ
  volume : ℚ
deriving DecidableEq, Repr

/-- The `"liquidity"` entry of a pair snapshot.  The API normally sends an
object; `pair.get("liquidity", {})` yields `{}` when absent, and a bare
number makes the later `.get("usd")` raise `AttributeError`. -/
inductive LiqVal where
  | obj (usd base : Option ℚ)
  | num (v : ℚ)
  | missing
deriving DecidableEq, Repr

/-- A pair descriptor from the candidate source, together with the outcome of
the external `get_candles` fetch for it (`error` models the `requests`
exception propagating out of `get_candles`; a non-200 status or an empty
payload is `ok []`). -/
structure PairIn where
  pairAddress : Option String
  address : Option String
  symbol : Option String
  name : Option String
  liquidity : LiqVal
  priceUsd : Option ℚ
  fdv : Option ℚ
  marketCap : Option ℚ
  candlesResult : Except Unit (List Candle)

/-- A dataframe: the base candle columns plus the optional enrichment
columns, with a presence flag per added column (pandas `"col" in df`).
`liquidityUsd` and `mcap` are constant (broadcast) columns; `volumeUsd` is
`volume * px` per bar where `px` is a scalar (NaN when `none`). -/
structure Df where
  candles : List Candle
  hasVolumeUsd : Bool
  px : Option ℚ
  hasLiquidityUsd : Bool
  liquidityUsd : ℚ
  hasMcap : Bool
  mcap : Option ℚ

/-- The close column. -/
def Df.closes (df : Df) : List ℚ := df.candles.map Candle.close

/-- The raw (base-token) volume column. -/
def Df.volumes (df : Df) : List ℚ := df.candles.map Candle.volume

/-- The `volumeUsd` column: `df["volume"] * px`, NaN in every bar when the
snapshot price is unavailable. -/
def Df.volumeUsd (df : Df) : List (Option ℚ) :=
  df.candles.map fun c => df.px.map fun p => c.volume * p

/-- The `mcap` column (a scalar broadcast over all bars). -/
def Df.mcapCol (df : Df) : List (Option ℚ) :=
  df.candles.map fun _ => df.mcap

/-- Python truthiness for an optional number (`None` and `0` are falsy). -/
def truthyQ : Option ℚ → Bool
  | some q => q ≠ 0
  | none => false

/-- Python truthiness for an optional string. -/
def truthyS : Option String → Bool
  | some s => s ≠ ""
  | none => false

/-- `liq.get("usd", None) or liq.get("base", None) or 0` for an object-shaped
liquidity entry. -/
def liqUsdOf (usd base : Option ℚ) : ℚ :=
  if truthyQ usd then usd.getD 0 else if truthyQ base then base.getD 0 else 0

/-- `float(pair.get("fdv", None) or pair.get("marketCap", None) or np.nan)`:
the `or`-chain skips falsy (absent or zero) values, so the result is never
`some 0`; `float(None)` raising is caught and also yields NaN. -/
def mcapOf (p : PairIn) : Option ℚ :=
  if truthyQ p.fdv then p.fdv else if truthyQ p.marketCap then p.marketCap else none

/-- `px = float(quote) if quote else np.nan`.  `quote` is the `priceUsd`
string; a nonempty string (even `"0"`) is truthy, so the parsed value is kept
whenever present. -/
def pxOf (p : PairIn) : Option ℚ := p.priceUsd

/-- `enrich_with_snapshot(df, pair)` (app.py lines 82-101).  `none` models
the `AttributeError` when the liquidity entry is a bare number. -/
def enrich (cs : List Candle) (p : PairIn) : Option Df :=
  match p.liquidity with
  | LiqVal.num _ => none
  | LiqVal.obj u b => some ⟨cs, true, pxOf p, true, liqUsdOf u b, true, mcapOf p⟩
  | LiqVal.missing => some ⟨cs, true, pxOf p, true, liqUsdOf none none, true, mcapOf p⟩

/-! ### Guards (app.py lines 141-146) -/

/-- The volume column the guard uses: `"volumeUsd" if "volumeUsd" in df else
"volume"` — a column-presence test, not a value test. -/
def guardsVolCol (df : Df) : List (Option ℚ) :=
  if df.hasVolumeUsd then df.volumeUsd else df.volumes.map some

/-- `df[vcol].rolling(20).mean().iloc[-1]`: outer `none` is the `IndexError`
on an empty frame, inner `none` is NaN. -/
def guardsVavg (df : Df) : Option (Option ℚ) :=
  ilocb (rollingApply 20 (meanF 20) (guardsVolCol df)) 1

/-- The volume guard: `(vavg is not None) and (vavg >= MIN_ABS_VOLUME_USD)`.
pandas returns NaN (never `None`), so the first conjunct is always true and a
NaN average fails the `>=` comparison. -/
def guardsVolOk (df : Df) : Option Bool :=
  (guardsVavg df).map fun vavg =>
    match vavg with
    | some q => decide (MIN_ABS_VOLUME_USD ≤ q)
    | none => false

/-- The liquidity guard: `("liquidityUsd" in df) and
(df["liquidityUsd"].iloc[-1] >= MIN_LIQ_USD)`; the column is a broadcast
scalar, so on a nonempty frame `iloc[-1]` is that scalar. -/
def guardsLiqOk (df : Df) : Bool :=
  df.hasLiquidityUsd && decide (MIN_LIQ_USD ≤ df.liquidityUsd)

/-- `guards(df)`: both guards must pass.  `none` models the `IndexError` of
`iloc[-1]` on an empty frame. -/
def guards (df : Df) : Option Bool :=
  (guardsVolOk df).map fun v => v && guardsLiqOk df

/-! ### Rules (app.py lines 104-139)

Each rule returns `Option (Bool × Metrics)`: the outer `none` models a
Python exception escaping the rule (out-of-bounds `iloc`), which the scan
loop catches. -/

/-- Auxiliary metrics of a rule result; a `none` value is a float NaN. -/
abbrev Metrics := List (String × Option ℚ)

/-- `df["volumeUsd"].fillna(0)` (raises `KeyError` when the column is
absent, which never happens on an enriched frame). -/
def emaCrossVol (df : Df) : List ℚ :=
  df.volumeUsd.map (fun o => o.getD 0)

/-- The crossover test of `rule_ema_cross`:
`(e9.iloc[-2] < e21.iloc[-2]) and (e9.iloc[-1] > e21.iloc[-1])`;
`none` is the `IndexError` when the series has fewer than 2 bars. -/
def emaCrossCross (df : Df) : Option Bool := do
  let e9 := ema df.closes 9
  let e21 := ema df.closes 21
  let a ← ilocb e9 2
  let b ← ilocb e21 2
  let a1 ← ilocb e9 1
  let b1 ← ilocb e21 1
  pure (decide (a < b) && decide (b1 < a1))

/-- `v.rolling(20).mean().iloc[-1]` in `rule_ema_cross` (inner `none` = NaN). -/
def emaCrossVavgRaw (df : Df) : Option (Option ℚ) :=
  ilocb (rollingApply 20 (meanF 20) ((emaCrossVol df).map some)) 1

/-- `vavg ... or 1`: Python truthiness replaces an exact `0.0` by `1`;
NaN is truthy and passes through unchanged. -/
def orOne : Option ℚ → Option ℚ
  | some q => if q = 0 then some 1 else some q
  | none => none

/-- `rule_ema_cross(df)` (app.py lines 104-111). -/
def rule_ema_cross (df : Df) : Option (Bool × Metrics) := do
  let cross ← emaCrossCross df
  let vavgRaw ← emaCrossVavgRaw df
  let vavg := orOne vavgRaw
  let vlast ← ilocb (emaCrossVol df) 1
  let volOk := match vavg with
    | some q => decide (VOL_MULT_CONFIRM * q < vlast)
    | none => false
  pure (cross && volOk, [("vol_mult", odiv (some vlast) vavg)])

/-- The bandwidth series `(up - dn) / ma` of `rule_boll_breakout`. -/
noncomputable def bollBw (df : Df) : List (Option ℝ) :=
  let b := bollinger df.closes 20 2
  List.zipWith odivR (List.zipWith (omap2R (· - ·)) b.2.1 b.2.2) b.1

/-- `bw.rolling(30).count().iloc[-1]`: the number of non-NaN bandwidth values
among the last `min(30, len)` bars. -/
noncomputable def bollCountLast (df : Df) : ℕ :=
  let bw := bollBw df
  (bw.drop (bw.length - 30)).countP fun o => o.isSome

/-- `win.apply(lambda x: x.iloc[-1], raw=False).dropna()`: the bandwidth
value of every bar whose trailing 30 bandwidth entries are all valid — i.e.
the bandwidths of ALL eligible bars of the series, not only the last 30. -/
noncomputable def bollApplyDropna (df : Df) : List ℝ :=
  let bw := bollBw df
  (List.range bw.length).filterMap fun i =>
    if 30 ≤ i + 1 then
      match allSome ((bw.take (i + 1)).drop (i + 1 - 30)) with
      | some w => w.getLast?
      | none => none
    else none

open Classical in
/-- Insertion of one value into a sorted list of reals (comparisons are
classical; numpy sorts floats the same way on NaN-free data). -/
noncomputable def insertR (a : ℝ) : List ℝ → List ℝ
  | [] => [a]
  | b :: t => if a ≤ b then a :: b :: t else b :: insertR a t

/-- Sorting a NaN-free list of reals ascending (what `np.nanpercentile`
does internally). -/
noncomputable def sortR : List ℝ → List ℝ
  | [] => []
  | a :: t => insertR a (sortR t)

/-- `np.nanpercentile(l, 20)` on a NaN-free list: linear interpolation at
rank `h = (m-1)·20/100`; `none` for an empty list. -/
noncomputable def nanPercentile20 (l : List ℝ) : Option ℝ :=
  match l with
  | [] => none
  | _ =>
    let s := sortR l
    let m := l.length
    let i := (m - 1) / 5
    let frac : ℚ := ((m - 1) % 5 : ℕ) / 5
    match s.get? i, s.get? (i + 1) with
    | some a, some b => some (a + (frac : ℝ) * (b - a))
    | some a, none => some a
    | none, _ => none

/-- The `pct20` value of `rule_boll_breakout`: NaN unless the last 30
bandwidth entries are all valid. -/
noncomputable def bollPct20 (df : Df) : Option ℝ :=
  if 30 ≤ bollCountLast df then nanPercentile20 (bollApplyDropna df) else none

/-- The squeeze condition:
`(not math.isnan(pct20)) and (bw.iloc[-1] <= pct20)` (a NaN bandwidth fails
the comparison). -/
noncomputable def bollSqueeze (df : Df) : Prop :=
  match bollPct20 df, ilocb (bollBw df) 1 with
  | some p, some (some b) => b ≤ p
  | _, _ => False

/-- The breakout condition:
`c.iloc[-1] > (up.iloc[-1] if not math.isnan(up.iloc[-1]) else np.inf)`
(`c > inf` is false when the band is undefined). -/
noncomputable def bollBreakout (df : Df) : Prop :=
  match ilocb (bollinger df.closes 20 2).2.1 1 with
  | some (some u) => ((ilocb df.closes 1).getD 0 : ℝ) > u
  | _ => False

open Classical in
/-- `rule_boll_breakout(df)` (app.py lines 113-122); `none` is the
`IndexError` of the various `iloc[-1]` calls on an empty frame. -/
noncomputable def rule_boll_breakout (df : Df) : Option (Bool × Metrics) :=
  if df.candles = [] then none
  else some (if bollSqueeze df ∧ bollBreakout df then true else false, [])

/-- `rule_rsi_reclaim(df, level=50)` (app.py lines 124-126): fires when
`rsi(close).iloc[-1] > 50`; a NaN RSI compares false. -/
def rule_rsi_reclaim (df : Df) : Option (Bool × Metrics) := do
  let r ← ilocb (rsi df.closes 14) 1
  pure (match r with
    | some v => decide (50 < v)
    | none => false, [("rsi", r)])

/-- `rule_obv_leads(df)` (app.py lines 128-133): OBV makes a new 50-bar high
while price does not; `none` is the `IndexError` of `iloc[-2]` on a frame
with fewer than 2 bars. -/
def rule_obv_leads (df : Df) : Option (Bool × Metrics) := do
  let c := df.closes
  let o := obv c df.volumes
  let cmax ← ilocb (rollingApply 50 maxF (c.map some)) 2
  let omax ← ilocb (rollingApply 50 maxF (o.map some)) 2
  let clast ← ilocb c 1
  let olast ← ilocb o 1
  let priceHH := match cmax with
    | some m => decide (m < clast)
    | none => false
  let obvHH := match omax with
    | some m => decide (m < olast)
    | none => false
  pure (obvHH && !priceHH, [])

/-- `series.pct_change(n)`: entry `i` is `x[i]/x[i-n] - 1`, NaN for the
first `n` entries; a zero base value (float `0/0` or `x/0`) is modelled as
NaN and never arises on the broadcast `mcap` column, which is never `some 0`. -/
def pctChange (n : ℕ) (xs : List (Option ℚ)) : List (Option ℚ) :=
  (List.range xs.length).map fun i =>
    if n ≤ i then
      (odiv ((xs.get? i).getD none) ((xs.get? (i - n)).getD none)).map (· - 1)
    else none

/-- `rule_mcap_roc(df, thr=5)` (app.py lines 135-139): inert when the mcap
column is absent or all-NaN; otherwise fires when the percentage change over
`ROC_WINDOW` bars exceeds 5. -/
def rule_mcap_roc (df : Df) : Option (Bool × Metrics) :=
  if !df.hasMcap || df.mcap = none || df.candles = [] then
    -- `"mcap" not in df or df["mcap"].isna().all()` (vacuously all-NaN on an
    -- empty frame)
    some (false, [])
  else do
    let roc0 ← ilocb (pctChange ROC_WINDOW (df.mcapCol)) 1
    let roc := roc0.map (· * 100)
    pure (match roc with
      | some v => decide ((5 : ℚ) < v)
      | none => false, [("roc%", roc)])

/-! ### Signal aggregation and scan driver (app.py lines 149-192) -/

/-- The fixed rule tuple of `scan_once`, with the Python function names, in
evaluation order. -/
noncomputable def ruleList : List (String × (Df → Option (Bool × Metrics))) :=
  [("rule_ema_cross", rule_ema_cross),
   ("rule_boll_breakout", rule_boll_breakout),
   ("rule_rsi_reclaim", rule_rsi_reclaim),
   ("rule_obv_leads", rule_obv_leads),
   ("rule_mcap_roc", rule_mcap_roc)]

/-- The rule names in evaluation order. -/
noncomputable def ruleNames : List String := ruleList.map Prod.fst

/-- The per-rule `try/except` of the scan loop: an exception inside a rule
becomes `ok, meta = False, {}`. -/
def handleRule (r : Option (Bool × Metrics)) : Bool × Metrics :=
  r.getD (false, [])

/-- The `hits` list accumulated by the scan loop over a list of rules: the
names, in evaluation order, of the rules whose (exception-handled) result
passed. -/
def hitsOver (rules : List (String × (Df → Option (Bool × Metrics)))) (df : Df) :
    List String :=
  rules.filterMap fun nf => if (handleRule (nf.2 df)).1 then some nf.1 else none

/-- The `hits` list for the full rule set. -/
noncomputable def hitsOf (df : Df) : List String := hitsOver ruleList df

/-- The alert payload assembled by `scan_once` (the fields interpolated into
the Telegram message). -/
structure Alert where
  sym : String
  signals : List String
  price : Option ℚ
  vol20 : Option ℚ
  liq : ℚ
  roc : Option ℚ
deriving DecidableEq

/-- Alert construction: an alert is produced iff at least
`MIN_SIGNALS_REQUIRED` rules pass; none of the message interpolations can
raise (NaN formats as `nan`, `int` of the rational liquidity is fine). -/
noncomputable def alertFor (sym : String) (df : Df) : Option Alert :=
  if MIN_SIGNALS_REQUIRED ≤ (hitsOf df).length then
    some ⟨sym, hitsOf df, ilocb df.closes 1,
          (ilocb (rollingApply 20 (meanF 20) df.volumeUsd) 1).getD none,
          df.liquidityUsd,
          if df.mcap = none then none
          else ((ilocb (pctChange ROC_WINDOW df.mcapCol) 1).getD none).map (· * 100)⟩
  else none

/-- `pair.get("pairAddress") or pair.get("address")` followed by
`if not addr: continue`. -/
def addrTruthy (p : PairIn) : Bool :=
  truthyS p.pairAddress || truthyS p.address

/-- `baseToken.symbol or baseToken.name or "?"`. -/
def symOf (p : PairIn) : String :=
  if truthyS p.symbol then p.symbol.getD "?"
  else if truthyS p.name then p.name.getD "?" else "?"

/-- The body of the per-pair loop of `scan_once`.  The result is
`none` when an exception escapes the body (a failed candle fetch, or
`enrich_with_snapshot` raising) — aborting the whole cycle, because the loop
body has no `try/except` of its own; `some none` is a pair processed without
an alert; `some (some a)` emits alert `a`. -/
noncomputable def processPair (p : PairIn) : Option (Option Alert) :=
  if !addrTruthy p then some none
  else
    match p.candlesResult with
    | Except.error _ => none
    | Except.ok cs =>
      let cs := lastN LOOKBACK cs
      if cs.length < 60 then some none
      else
        match enrich cs p with
        | none => none
        | some df =>
          match guards df with
          | none => none
          | some false => some none
          | some true => some (alertFor (symOf p) df)

/-- Outcome of one scan cycle: which pair positions the loop reached, the
alerts emitted before any abort, and whether the cycle was aborted by an
exception (caught by `main`, which then just sleeps and rescans). -/
structure ScanRes where
  reached : List ℕ
  alerts : List Alert
  aborted : Bool
deriving DecidableEq

/-- The pair loop: stops at the first pair whose evaluation raises. -/
noncomputable def scanGo : ℕ → List PairIn → ScanRes
  | _, [] => ⟨[], [], false⟩
  | i, p :: rest =>
    match processPair p with
    | none => ⟨[i], [], true⟩
    | some a =>
      let r := scanGo (i + 1) rest
      ⟨i :: r.reached, a.toList ++ r.alerts, r.aborted⟩

/-- `scan_once` over an already-fetched candidate list (the external
`get_new_solana_pairs` result): only the newest `PAIRS_PER_SCAN` pairs are
examined. -/
noncomputable def scan_once (ps : List PairIn) : ScanRes :=
  scanGo 0 (ps.take PAIRS_PER_SCAN)

/-! ### Spec-side comparison definitions

These do NOT embed source code; each follows the literal words of one spec
sentence so the corresponding claim can be compared against the source
behaviour. -/

/-- Modelled from the spec: `bollinger` as the spec describes it, with σ the
rolling POPULATION standard deviation (divide by `n`), for comparison with
the source's sample standard deviation. -/
noncomputable def bollingerPop (xs : List ℚ) (n : ℕ) (k : ℚ) :
    List (Option ℝ) × List (Option ℝ) × List (Option ℝ) :=
  let ma : List (Option ℝ) := (rollingMean n xs).map (Option.map (fun q : ℚ => (q : ℝ)))
  let sd : List (Option ℝ) :=
    (rollingApply n (fun l => (l.map (fun x => (x - l.sum / (n : ℚ)) ^ 2)).sum / (n : ℚ))
        (xs.map some)).map (Option.map fun q : ℚ => Real.sqrt (q : ℝ))
  (ma,
   List.zipWith (omap2R fun m s => m + (k : ℝ) * s) ma sd,
   List.zipWith (omap2R fun m s => m - (k : ℝ) * s) ma sd)

/-- Modelled from the spec: a squeeze is declared "when the current bandwidth
is at or below the 20th percentile of the last 30 bandwidth values" — i.e.
the percentile is taken over the last 30 valid bandwidth observations only. -/
noncomputable def specSqueezeLast30 (df : Df) : Prop :=
  match nanPercentile20 (lastN 30 ((bollBw df).filterMap id)),
        ilocb (bollBw df) 1 with
  | some p, some (some b) => b ≤ p
  | _, _ => False

/-- Modelled from the spec: the volume guard "falling back to raw volume
units if value-denominated volume is unavailable" — a fallback keyed on the
VALUES being unavailable (all-NaN), not on column presence. -/
def specGuardsVolOk (df : Df) : Option Bool :=
  let col := if df.hasVolumeUsd && df.px ≠ none then df.volumeUsd
             else df.volumes.map some
  (ilocb (rollingApply 20 (meanF 20) col) 1).map fun vavg =>
    match vavg with
    | some q => decide (MIN_ABS_VOLUME_USD ≤ q)
    | none => false

/-! ### General lemmas about the embedding -/

theorem ilocb_of_ne_nil {α} (xs : List α) (h : xs ≠ []) :
    ilocb xs 1 = xs.get? (xs.length - 1) := by
  unfold ilocb
  rw [if_pos]
  exact Nat.one_le_iff_ne_zero.mpr (by simpa using h)

theorem length_rollingApply (n : ℕ) (f : List ℚ → ℚ) (xs : List (Option ℚ)) :
    (rollingApply n f xs).length = xs.length := by
  simp [rollingApply]

theorem allSome_map_some {α} (l : List α) : allSome (l.map some) = some l := by
  induction l with
  | nil => rfl
  | cons a t ih => simp [allSome, ih]

theorem rollingApply_get?_all (n : ℕ) (f : List ℚ → ℚ) (xs : List ℚ) (i : ℕ)
    (h : i < xs.length) :
    (rollingApply n f (xs.map some)).get? i =
      some (if n ≤ i + 1 then some (f ((xs.take (i + 1)).drop (i + 1 - n))) else none) := by
  unfold rollingApply
  rw [List.get?_map, List.get?_range (by simpa using h), Option.map_some']
  rw [← List.map_take, ← List.map_drop, allSome_map_some]

theorem get?_pctChange (n : ℕ) (xs : List (Option ℚ)) (i : ℕ) (h : i < xs.length) :
    (pctChange n xs).get? i =
      some (if n ≤ i then
        (odiv ((xs.get? i).getD none) ((xs.get? (i - n)).getD none)).map (· - 1)
      else none) := by
  unfold pctChange
  rw [List.get?_map, List.get?_range h, Option.map_some']

/-- The broadcast `mcap` column is never `some 0`: the Python `or`-chain
skips falsy values. -/
theorem mcapOf_ne_zero (p : PairIn) (c : ℚ) (h : mcapOf p = some c) : c ≠ 0 := by
  unfold mcapOf at h
  by_cases h1 : truthyQ p.fdv
  · rw [if_pos h1] at h
    cases hf : p.fdv with
    | none => rw [hf] at h1; simp [truthyQ] at h1
    | some v =>
      rw [hf] at h h1
      cases h
      simpa [truthyQ] using h1
  · rw [if_neg h1] at h
    by_cases h2 : truthyQ p.marketCap
    · rw [if_pos h2] at h
      cases hm : p.marketCap with
      | none => rw [hm] at h2; simp [truthyQ] at h2
      | some v =>
        rw [hm] at h h2
        cases h
        simpa [truthyQ] using h2
    · rw [if_neg h2] at h
      cases h

/-- Shape of a frame produced by `enrich_with_snapshot`: all three
enrichment columns are present, and the candles are untouched. -/
theorem enrich_shape (cs : List Candle) (p : PairIn) (df : Df)
    (h : enrich cs p = some df) :
    df.candles = cs ∧ df.hasVolumeUsd = true ∧ df.hasLiquidityUsd = true ∧
      df.hasMcap = true ∧ df.mcap = mcapOf p ∧ df.px = pxOf p := by
  unfold enrich at h
  cases hl : p.liquidity with
  | num v => rw [hl] at h; cases h
  | obj u b => rw [hl] at h; cases h; exact ⟨rfl, rfl, rfl, rfl, rfl, rfl⟩
  | missing => rw [hl] at h; cases h; exact ⟨rfl, rfl, rfl, rfl, rfl, rfl⟩

/-! ### C1: the market-cap ROC rule is inert on enriched frames -/

/-- Full evaluation of `rule_mcap_roc` on a frame whose (nonempty, nonzero)
mcap column is the broadcast constant `c`. -/
theorem mcap_roc_eval (df : Df) (c : ℚ) (hc0 : c ≠ 0) (hm : df.hasMcap = true)
    (hcap : df.mcap = some c) (hne : df.candles ≠ []) :
    rule_mcap_roc df = some (false,
      [("roc%", if ROC_WINDOW ≤ df.candles.length - 1 then some 0 else none)]) := by
  unfold rule_mcap_roc
  rw [if_neg (by simp [hm, hcap, hne])]
  have hlen : df.mcapCol.length = df.candles.length := by simp [Df.mcapCol]
  have hpos : 0 < df.candles.length := List.length_pos.mpr hne
  have hlen2 : (pctChange ROC_WINDOW df.mcapCol).length = df.candles.length := by
    simp [pctChange, hlen]
  have hpne : pctChange ROC_WINDOW df.mcapCol ≠ [] := by
    intro hnil
    rw [hnil] at hlen2
    simp at hlen2
    omega
  have hget : ∀ j, j < df.candles.length → df.mcapCol.get? j = some (some c) := by
    intro j hj
    unfold Df.mcapCol
    rw [List.get?_map, List.get?_eq_get hj, Option.map_some', hcap]
  rw [ilocb_of_ne_nil _ hpne, hlen2, get?_pctChange _ _ _ (by rw [hlen]; omega)]
  by_cases h5 : ROC_WINDOW ≤ df.candles.length - 1
  · rw [if_pos h5, if_pos h5, hget _ (by omega), hget _ (by omega)]
    simp [Option.bind, odiv, hc0, div_self hc0]
  · rw [if_neg h5, if_neg h5]
    simp [Option.bind]

/-- C1: on every frame produced by `enrich_with_snapshot` (any snapshot, any
nonempty candle list) the market-cap rate-of-change rule returns
`passed = false`: the broadcast snapshot makes the mcap column constant, so
the measured 5-bar percentage change is exactly zero (reported in the
`roc%` metric once 6 bars exist) and never exceeds the 5% threshold; with an
absent market cap the rule is inert as well. -/
theorem c1_mcap_roc_inert (cs : List Candle) (p : PairIn) (df : Df)
    (hcs : cs ≠ []) (h : enrich cs p = some df) :
    (∃ ms, rule_mcap_roc df = some (false, ms)) ∧
    (∀ c : ℚ, df.mcap = some c → 6 ≤ cs.length →
      rule_mcap_roc df = some (false, [("roc%", some 0)])) := by
  obtain ⟨hc, _, _, hm, hmc, _⟩ := enrich_shape cs p df h
  have hne : df.candles ≠ [] := by rw [hc]; exact hcs
  constructor
  · cases hcap : df.mcap with
    | none =>
      refine ⟨[], ?_⟩
      unfold rule_mcap_roc
      rw [if_pos]
      simp [hcap]
    | some c =>
      exact ⟨_, mcap_roc_eval df c (mcapOf_ne_zero p c (hmc ▸ hcap)) hm hcap hne⟩
  · intro c hcap hlen6
    rw [mcap_roc_eval df c (mcapOf_ne_zero p c (hmc ▸ hcap)) hm hcap hne,
        if_pos (by rw [hc]; unfold ROC_WINDOW; omega)]

/-- A helper for building concrete candles in witnesses: flat OHLC at `c`
with volume `v`. -/
def mkCandle (c v : ℚ) : Candle := ⟨0, c, c, c, c, v⟩

def csW1 : List Candle := List.replicate 6 (mkCandle 1 5)

def pW1 : PairIn :=
  ⟨some "a", none, some "S", none, LiqVal.obj (some 30000) none, some 1,
   some 100, none, Except.ok []⟩

def dfW1 : Df := ⟨csW1, true, some 1, true, 30000, true, some 100⟩

/-- Witness for C1 at a concrete 6-bar series with market cap present. -/
theorem c1_witness :
    rule_mcap_roc dfW1 = some (false, [("roc%", some 0)]) :=
  (c1_mcap_roc_inert csW1 pW1 dfW1 (by decide) (by rfl)).2 100 rfl (by decide)

/-! ### C7: the liquidity guard boundary -/

theorem guardsVolCol_length (df : Df) : (guardsVolCol df).length = df.candles.length := by
  unfold guardsVolCol Df.volumeUsd Df.volumes
  by_cases h : df.hasVolumeUsd <;> simp [h]

theorem guardsVolOk_isSome (df : Df) (h : df.candles ≠ []) :
    ∃ v, guardsVolOk df = some v := by
  have hpos : 0 < df.candles.length := List.length_pos.mpr h
  have hlen : (rollingApply 20 (meanF 20) (guardsVolCol df)).length = df.candles.length := by
    rw [length_rollingApply, guardsVolCol_length]
  have hne : rollingApply 20 (meanF 20) (guardsVolCol df) ≠ [] := by
    intro hnil
    rw [hnil] at hlen
    simp at hlen
    omega
  unfold guardsVolOk guardsVavg
  rw [ilocb_of_ne_nil _ hne, hlen, List.get?_eq_get (by rw [hlen]; omega),
      Option.map_some']
  exact ⟨_, rfl⟩

/-- C7: on an enriched frame the pair is rejected when the broadcast
liquidity value is exactly `MIN_LIQ_USD - 1` and admitted when it is exactly
`MIN_LIQ_USD`, provided the volume guard passes. -/
theorem c7_liquidity_boundary (cs : List Candle) (p : PairIn) (df : Df)
    (hcs : cs ≠ []) (h : enrich cs p = some df) :
    (df.liquidityUsd = MIN_LIQ_USD - 1 → guards df = some false) ∧
    (df.liquidityUsd = MIN_LIQ_USD → guardsVolOk df = some true →
      guards df = some true) := by
  obtain ⟨hc, _, hliq, _, _, _⟩ := enrich_shape cs p df h
  have hne : df.candles ≠ [] := by rw [hc]; exact hcs
  constructor
  · intro hval
    obtain ⟨v, hv⟩ := guardsVolOk_isSome df hne
    unfold guards
    rw [hv, Option.map_some']
    have : guardsLiqOk df = false := by
      unfold guardsLiqOk MIN_LIQ_USD
      rw [hval]
      norm_num [MIN_LIQ_USD]
    rw [this, Bool.and_false]
  · intro hval hvol
    unfold guards
    rw [hvol, Option.map_some']
    have : guardsLiqOk df = true := by
      unfold guardsLiqOk
      rw [hliq, hval]
      simp
    rw [this, Bool.and_true]

def csW7 : List Candle := List.replicate 20 (mkCandle 1 5000)

def pW7a : PairIn :=
  ⟨some "a", none, some "S", none, LiqVal.obj (some 29999) none, some 1,
   none, none, Except.ok []⟩

def pW7b : PairIn :=
  ⟨some "a", none, some "S", none, LiqVal.obj (some 30000) none, some 1,
   none, none, Except.ok []⟩

def dfW7a : Df := ⟨csW7, true, some 1, true, 29999, true, none⟩

def dfW7b : Df := ⟨csW7, true, some 1, true, 30000, true, none⟩

/-- Witness for C7: 20 flat bars with $5000-per-bar USD volume; liquidity
29999 is rejected, liquidity 30000 is admitted. -/
theorem c7_witness : guards dfW7a = some false ∧ guards dfW7b = some true :=
  ⟨(c7_liquidity_boundary csW7 pW7a dfW7a (by simp [csW7]) (by rfl)).1
      (by norm_num [dfW7a, MIN_LIQ_USD]),
   (c7_liquidity_boundary csW7 pW7b dfW7b (by simp [csW7]) (by rfl)).2 rfl
      (by norm_num [guardsVolOk, guardsVavg, rollingApply, guardsVolCol, dfW7b, csW7,
        Df.volumeUsd, mkCandle, ilocb, allSome, meanF, List.range_succ,
        MIN_ABS_VOLUME_USD])⟩

/-! ### C5: the volume guard's "fallback" is keyed on column presence -/

def csW5 : List Candle := List.replicate 20 (mkCandle 1 5000)

def pW5 : PairIn :=
  ⟨some "a", none, some "S", none, LiqVal.obj (some 30000) none, none,
   none, none, Except.ok []⟩

def dfW5 : Df := ⟨csW5, true, none, true, 30000, true, none⟩

/-- Counterexample for C5: an enriched frame whose snapshot price (hence
every `volumeUsd` value) is unavailable, with a raw-volume 20-bar average of
5000 ≥ 3000 and admissible liquidity.  The spec-worded guard (fallback on
value unavailability) admits the pair, but `guards` rejects it: the frame
HAS a `volumeUsd` column (all NaN), so no fallback happens and the NaN
average fails the threshold comparison. -/
theorem c5_counterexample :
    enrich csW5 pW5 = some dfW5 ∧ guards dfW5 = some false ∧
    specGuardsVolOk dfW5 = some true ∧ guardsLiqOk dfW5 = true := by
  refine ⟨rfl, ?_, ?_, ?_⟩
  · norm_num [guards, guardsVolOk, guardsVavg, rollingApply, guardsVolCol, dfW5, csW5,
      Df.volumeUsd, mkCandle, ilocb, allSome, List.range_succ]
  · norm_num [specGuardsVolOk, rollingApply, dfW5, csW5, Df.volumes,
      mkCandle, ilocb, allSome, meanF, List.range_succ, MIN_ABS_VOLUME_USD]
  · norm_num [guardsLiqOk, dfW5, MIN_LIQ_USD]

theorem take_drop_replicate_none (n m i : ℕ) :
    ((List.replicate m (none : Option ℚ)).take (i + 1)).drop (i + 1 - n) =
      List.replicate (min (i + 1) m - (i + 1 - n)) none := by
  rw [List.take_replicate, List.drop_replicate]

theorem allSome_replicate_none (k : ℕ) (hk : 0 < k) :
    allSome (List.replicate k (none : Option ℚ)) = none := by
  cases k with
  | zero => omega
  | succ k => rfl

theorem rollingApply_all_none (n : ℕ) (f : List ℚ → ℚ) (m : ℕ) (hn : 1 ≤ n) :
    rollingApply n f (List.replicate m none) = List.replicate m none := by
  unfold rollingApply
  rw [List.length_replicate]
  apply List.eq_replicate.mpr
  refine ⟨by simp, ?_⟩
  intro b hb
  obtain ⟨i, hi, rfl⟩ := List.mem_map.mp hb
  have him : i < m := List.mem_range.mp hi
  by_cases hc : n ≤ i + 1
  · rw [if_pos hc, take_drop_replicate_none,
        allSome_replicate_none _ (by omega)]
  · rw [if_neg hc]

/-- C5 amended: the fallback to raw volume units fires only when the
`volumeUsd` COLUMN is absent, which never happens after
`enrich_with_snapshot`; when the snapshot price is unavailable the enriched
column is all-NaN, the 20-bar rolling average is NaN, and the volume guard
rejects the pair. -/
theorem c5_amended (cs : List Candle) (p : PairIn) (df : Df)
    (hcs : cs ≠ []) (h : enrich cs p = some df) (hpx : p.priceUsd = none) :
    guards df = some false := by
  obtain ⟨hc, hvu, _, _, _, hpxe⟩ := enrich_shape cs p df h
  have hne : df.candles ≠ [] := by rw [hc]; exact hcs
  have hpos : 0 < df.candles.length := List.length_pos.mpr hne
  have hcol : guardsVolCol df = List.replicate df.candles.length none := by
    unfold guardsVolCol
    rw [if_pos hvu]
    unfold Df.volumeUsd
    rw [hpxe]
    unfold pxOf
    rw [hpx]
    simp [List.map_const']
  have hroll : rollingApply 20 (meanF 20) (guardsVolCol df) =
      List.replicate df.candles.length none := by
    rw [hcol, rollingApply_all_none _ _ _ (by omega)]
  have hvavg : guardsVavg df = some none := by
    unfold guardsVavg
    rw [hroll, ilocb_of_ne_nil _ (by simp [← List.length_pos_iff_ne_nil]; omega),
        List.length_replicate, List.get?_eq_get (by rw [List.length_replicate]; omega),
        List.get_replicate]
  unfold guards guardsVolOk
  rw [hvavg]
  rfl

/-- Witness for the amended C5 at the concrete price-less snapshot. -/
theorem c5_amended_witness : guards dfW5 = some false :=
  c5_amended csW5 pW5 dfW5 (by simp [csW5]) rfl rfl

/-! ### C10: the `or 1` substitution for a zero volume average -/

/-- C10: in `rule_ema_cross`, when the 20-bar rolling average of the
NaN-filled USD volume at the latest bar is exactly zero, Python's `or 1`
substitutes `1` before both the confirmation comparison and the `vol_mult`
metric: the confirmation becomes `v.iloc[-1] > 1.5` (absolute) and
`vol_mult = v.iloc[-1] / 1`, so the division never divides by zero. -/
theorem c10_vavg_zero_substitution (df : Df) (vl : ℚ) (cr : Bool)
    (hvl : ilocb (emaCrossVol df) 1 = some vl)
    (havg : emaCrossVavgRaw df = some (some 0))
    (hcr : emaCrossCross df = some cr) :
    orOne (some 0) = some 1 ∧
    rule_ema_cross df =
      some (cr && decide (VOL_MULT_CONFIRM < vl), [("vol_mult", some vl)]) := by
  refine ⟨by norm_num [orOne], ?_⟩
  unfold rule_ema_cross
  rw [hcr, havg, hvl]
  have hone : orOne (some 0) = some 1 := by norm_num [orOne]
  simp only [Option.bind_eq_bind, Option.some_bind, hone]
  norm_num [odiv]

def dfW10 : Df := ⟨List.replicate 20 (mkCandle 1 0), true, some 1, true, 0, true, none⟩

/-- Witness for C10: 20 flat bars with zero volume; the zero average is
replaced by 1, the confirmation compares the last volume against 1.5 and the
metric divides by 1. -/
theorem c10_witness :
    rule_ema_cross dfW10 =
      some (false && decide (VOL_MULT_CONFIRM < (0 : ℚ)), [("vol_mult", some 0)]) :=
  (c10_vavg_zero_substitution dfW10 0 false
    (by norm_num [emaCrossVol, dfW10, Df.volumeUsd, mkCandle, ilocb,
      List.replicate_succ])
    (by norm_num [emaCrossVavgRaw, emaCrossVol, rollingApply, dfW10, Df.volumeUsd,
      mkCandle, ilocb, allSome, meanF, List.range_succ, List.replicate_succ])
    (by norm_num [emaCrossCross, ema, emaAux, dfW10, Df.closes, mkCandle, ilocb,
      List.replicate_succ, Option.bind])).2

/-! ### C9: RSI is bounded and its divisor is never zero -/

theorem rollingApply_get?_eq (n : ℕ) (f : List ℚ → ℚ) (xs : List (Option ℚ)) (i : ℕ)
    (h : i < xs.length) :
    (rollingApply n f xs).get? i =
      some (if n ≤ i + 1 then (allSome ((xs.take (i + 1)).drop (i + 1 - n))).map f
            else none) := by
  unfold rollingApply
  rw [List.get?_map, List.get?_range h, Option.map_some']
  congr 1
  by_cases hc : n ≤ i + 1
  · rw [if_pos hc, if_pos hc]
    cases allSome ((xs.take (i + 1)).drop (i + 1 - n)) <;> rfl
  · rw [if_neg hc, if_neg hc]

theorem mem_of_allSome (l : List (Option ℚ)) (w : List ℚ) (h : allSome l = some w) :
    ∀ x ∈ w, some x ∈ l := by
  induction l generalizing w with
  | nil =>
    cases h
    intro x hx
    cases hx
  | cons o t ih =>
    cases o with
    | none => cases h
    | some a =>
      unfold allSome at h
      cases ht : allSome t with
      | none => rw [ht] at h; cases h
      | some tw =>
        rw [ht, Option.map_some'] at h
        cases h
        intro x hx
        rcases List.mem_cons.mp hx with rfl | hx
        · exact List.mem_cons_self _ _
        · exact List.mem_cons_of_mem _ (ih tw ht x hx)

theorem clipLow0_nonneg (l : List (Option ℚ)) (x : ℚ) (h : some x ∈ clipLow0 l) :
    0 ≤ x := by
  unfold clipLow0 at h
  obtain ⟨o, _, ho⟩ := List.mem_map.mp h
  cases o with
  | none => cases ho
  | some d =>
    rw [Option.map_some'] at ho
    cases ho
    exact le_max_right d 0

theorem mean_of_clip_nonneg (n : ℕ) (l : List (Option ℚ)) (i : ℕ) (q : ℚ)
    (h : (rollingApply n (meanF n) (clipLow0 l)).get? i = some (some q)) : 0 ≤ q := by
  have hi : i < (clipLow0 l).length := by
    by_contra hge
    rw [List.get?_eq_none.mpr (by rw [length_rollingApply]; omega)] at h
    cases h
  rw [rollingApply_get?_eq _ _ _ _ hi] at h
  by_cases hc : n ≤ i + 1
  · rw [if_pos hc] at h
    cases hw : allSome (((clipLow0 l).take (i + 1)).drop (i + 1 - n)) with
    | none => rw [hw] at h; simp at h
    | some w =>
      rw [hw, Option.map_some'] at h
      have hq : meanF n w = q := by simpa using h
      subst hq
      unfold meanF
      apply div_nonneg _ (by positivity)
      apply List.sum_nonneg
      intro x hx
      exact clipLow0_nonneg l x
        (List.mem_of_mem_take (List.mem_of_mem_drop (mem_of_allSome _ w hw x hx)))
  · rw [if_neg hc] at h
    simp at h

theorem rsiAvgLoss_pos (xs : List ℚ) (n : ℕ) (i : ℕ) (l : ℚ)
    (h : (rsiAvgLoss xs n).get? i = some (some l)) : 0 < l := by
  unfold rsiAvgLoss at h
  rw [List.get?_map] at h
  cases hg : (rollingApply n (meanF n)
      (clipLow0 ((diffL xs).map (Option.map (- ·))))).get? i with
  | none => rw [hg] at h; cases h
  | some o =>
    rw [hg, Option.map_some'] at h
    cases o with
    | none => cases h
    | some q =>
      rw [Option.map_some'] at h
      cases h
      have hq : 0 ≤ q := mean_of_clip_nonneg n _ i q hg
      by_cases h0 : q = 0
      · rw [if_pos h0]
        norm_num
      · rw [if_neg h0]
        exact lt_of_le_of_ne hq (Ne.symm h0)

theorem get?_zipWith {α β γ : Type} (f : α → β → γ) (l1 : List α) (l2 : List β)
    (i : ℕ) :
    (List.zipWith f l1 l2).get? i =
      match l1.get? i, l2.get? i with
      | some a, some b => some (f a b)
      | _, _ => none := by
  induction l1 generalizing l2 i with
  | nil => cases l2 <;> cases i <;> rfl
  | cons a t ih =>
    cases l2 with
    | nil =>
      cases i with
      | zero => rfl
      | succ j => cases h : t.get? j <;> simp [List.get?_cons_succ, h]
    | cons b t2 =>
      cases i with
      | zero => rfl
      | succ j => simpa using ih t2 j

theorem gain_nonneg (xs : List ℚ) (n : ℕ) (i : ℕ) (q : ℚ)
    (h : (rsiAvgGain xs n).get? i = some (some q)) : 0 ≤ q :=
  mean_of_clip_nonneg n _ i q h

/-- C9: every defined RSI value of a series with at least `window + 1 = 15`
points lies in `[0, 100]`, and the zero-average-loss sentinel keeps every
defined divisor `avg_loss` nonzero, so the quotient `rs` is defined. -/
theorem c9_rsi_bounded (xs : List ℚ) (hlen : 15 ≤ xs.length) (i : ℕ) :
    (∀ l : ℚ, (rsiAvgLoss xs 14).get? i = some (some l) → l ≠ 0) ∧
    (∀ v : ℚ, (rsi xs 14).get? i = some (some v) → 0 ≤ v ∧ v ≤ 100) := by
  constructor
  · intro l hl
    exact ne_of_gt (rsiAvgLoss_pos xs 14 i l hl)
  · intro v hv
    unfold rsi at hv
    rw [List.get?_map, get?_zipWith] at hv
    cases hg : (rsiAvgGain xs 14).get? i with
    | none => rw [hg] at hv; cases hv
    | some og =>
      cases hlo : (rsiAvgLoss xs 14).get? i with
      | none => rw [hg, hlo] at hv; cases hv
      | some ol =>
        rw [hg, hlo] at hv
        cases og with
        | none => cases ol <;> simp [odiv] at hv
        | some g =>
          cases ol with
          | none => simp [odiv] at hv
          | some l =>
            simp only [odiv] at hv
            by_cases h0 : l = 0
            · rw [if_pos h0, Option.map_some'] at hv
              cases hv
            · rw [if_neg h0, Option.map_some', Option.map_some'] at hv
              cases hv
              have hgn : 0 ≤ g := gain_nonneg xs 14 i g hg
              have hlp : 0 < l := rsiAvgLoss_pos xs 14 i l hlo
              have hrs : 0 ≤ g / l := div_nonneg hgn (le_of_lt hlp)
              have h1 : (0 : ℚ) < 1 + g / l := by linarith
              constructor
              · have : 100 / (1 + g / l) ≤ 100 := by
                  rw [div_le_iff h1]
                  nlinarith
                linarith
              · have : 0 ≤ 100 / (1 + g / l) := by positivity
                linarith

def xsW9 : List ℚ := List.replicate 14 1 ++ [2]

/-- Witness for C9 at a 15-point series whose last RSI value is defined:
the sentinel divisor is nonzero and the RSI value is within bounds. -/
theorem c9_witness :
    ((1 : ℚ) / 1000000000 ≠ 0) ∧
    (0 ≤ (50000000000 : ℚ) / 500000007 ∧ (50000000000 : ℚ) / 500000007 ≤ 100) :=
  ⟨(c9_rsi_bounded xsW9 (by norm_num [xsW9]) 14).1 (1 / 1000000000)
      (by norm_num [rsiAvgLoss, rollingApply, xsW9, diffL, clipLow0, allSome, meanF,
        List.range_succ, List.replicate_succ]),
   (c9_rsi_bounded xsW9 (by norm_num [xsW9]) 14).2 (50000000000 / 500000007)
      (by norm_num [rsi, rsiAvgGain, rsiAvgLoss, rollingApply, xsW9, diffL, clipLow0,
        allSome, meanF, odiv, List.range_succ, List.replicate_succ])⟩

/-! ### C8: a rule exception is handled as passed = false, others still run -/

theorem hitsOver_eraseIdx (df : Df) :
    ∀ (l : List (String × (Df → Option (Bool × Metrics)))) (i : ℕ)
      (h : i < l.length), (l.get ⟨i, h⟩).2 df = none →
      hitsOver l df = hitsOver (l.eraseIdx i) df := by
  intro l
  induction l with
  | nil => intro i h; cases h
  | cons nf t ih =>
    intro i h hnone
    cases i with
    | zero =>
      unfold hitsOver
      rw [List.filterMap_cons]
      simp only [List.get] at hnone
      rw [hnone]
      rfl
    | succ j =>
      unfold hitsOver
      rw [List.filterMap_cons, List.eraseIdx_cons_succ, List.filterMap_cons]
      have := ih j (by simpa using h) (by simpa using hnone)
      unfold hitsOver at this
      cases hd : (if (handleRule (nf.2 df)).1 then some nf.1 else none) <;>
        rw [this]

/-- C8: if evaluating one of the five rules raises, the scan loop's
`try/except` records `passed = false` with empty metrics for it, and the
hits of the cycle are exactly those of the remaining rules — a single
malfunctioning rule never changes how the others are aggregated. -/
theorem c8_rule_fault_isolated (df : Df) (i : ℕ) (h : i < ruleList.length)
    (hnone : (ruleList.get ⟨i, h⟩).2 df = none) :
    handleRule ((ruleList.get ⟨i, h⟩).2 df) = (false, []) ∧
    hitsOf df = hitsOver (ruleList.eraseIdx i) df := by
  constructor
  · rw [hnone]
    rfl
  · exact hitsOver_eraseIdx df ruleList i h hnone

def dfW8 : Df := ⟨[mkCandle 1 1], true, some 1, true, 0, true, none⟩

theorem ruleList_length : ruleList.length = 5 := by
  unfold ruleList
  rfl

theorem dfW8_ema_none : (ruleList.get ⟨0, by rw [ruleList_length]; omega⟩).2 dfW8 = none := by
  show rule_ema_cross dfW8 = none
  norm_num [rule_ema_cross, emaCrossCross, ema, emaAux, dfW8, Df.closes, mkCandle,
    ilocb, Option.bind]

/-- Witness for C8: on a 1-bar frame `rule_ema_cross` raises (`iloc[-2]`),
is recorded as `(false, {})`, and the hits equal those of the other four
rules. -/
theorem c8_witness :
    handleRule ((ruleList.get ⟨0, by rw [ruleList_length]; omega⟩).2 dfW8) = (false, []) ∧
    hitsOf dfW8 = hitsOver (ruleList.eraseIdx 0) dfW8 :=
  c8_rule_fault_isolated dfW8 0 (by rw [ruleList_length]; omega) dfW8_ema_none

/-! ### C6: the aggregation threshold and rule-name ordering -/

theorem hitsOver_sublist (df : Df) (l : List (String × (Df → Option (Bool × Metrics)))) :
    (hitsOver l df).Sublist (l.map Prod.fst) := by
  induction l with
  | nil => exact List.Sublist.refl []
  | cons nf t ih =>
    unfold hitsOver
    rw [List.filterMap_cons, List.map_cons]
    by_cases hp : (handleRule (nf.2 df)).1
    · rw [if_pos hp]
      exact List.Sublist.cons₂ nf.1 ih
    · rw [if_neg hp]
      exact List.Sublist.cons nf.1 ih

/-- C6: on an admitted frame, no alert is produced when exactly
`MIN_SIGNALS_REQUIRED - 1` rules pass, exactly one alert is produced when
exactly `MIN_SIGNALS_REQUIRED` rules pass, and the alert carries the passing
rule names in rule evaluation order (a subsequence of `ruleNames`). -/
theorem c6_aggregation (df : Df) (sym : String) (hadm : guards df = some true) :
    ((hitsOf df).length = MIN_SIGNALS_REQUIRED - 1 → alertFor sym df = none) ∧
    ((hitsOf df).length = MIN_SIGNALS_REQUIRED →
      ∃ a, alertFor sym df = some a ∧ a.signals = hitsOf df) ∧
    (hitsOf df).Sublist ruleNames := by
  refine ⟨?_, ?_, hitsOver_sublist df ruleList⟩
  · intro hlen
    unfold alertFor
    rw [if_neg]
    rw [hlen]
    unfold MIN_SIGNALS_REQUIRED
    omega
  · intro hlen
    unfold alertFor
    rw [if_pos (by omega)]
    exact ⟨_, rfl, rfl⟩

/-! Evaluating the Bollinger rule without touching real arithmetic:
on frames shorter than 30 bars the bandwidth count is below 30, `pct20` is
NaN, and the rule cannot pass. -/

theorem length_bollBw (df : Df) : (bollBw df).length = df.candles.length := by
  unfold bollBw bollinger rollingStd
  simp [length_rollingApply, rollingMean, rollingVarSamp, Df.closes]

theorem bollCountLast_le (df : Df) : bollCountLast df ≤ df.candles.length := by
  unfold bollCountLast
  calc ((bollBw df).drop ((bollBw df).length - 30)).countP (fun o => o.isSome)
      ≤ ((bollBw df).drop ((bollBw df).length - 30)).length := List.countP_le_length _
    _ ≤ (bollBw df).length := by rw [List.length_drop]; omega
    _ = df.candles.length := length_bollBw df

theorem boll_inert_of_count_lt (df : Df) (hne : df.candles ≠ [])
    (hcnt : bollCountLast df < 30) : rule_boll_breakout df = some (false, []) := by
  unfold rule_boll_breakout
  rw [if_neg hne]
  congr 1
  have hpct : bollPct20 df = none := by
    unfold bollPct20
    rw [if_neg (by omega)]
  have hsq : ¬ bollSqueeze df := by
    unfold bollSqueeze
    rw [hpct]
    cases ilocb (bollBw df) 1 with
    | none => exact fun h => h
    | some o => exact fun h => h
  rw [if_neg (fun hb => hsq hb.1)]

theorem boll_inert_of_short (df : Df) (hne : df.candles ≠ [])
    (hlen : df.candles.length < 30) : rule_boll_breakout df = some (false, []) :=
  boll_inert_of_count_lt df hne (lt_of_le_of_lt (bollCountLast_le df) hlen)

/-- C6 witness frame A: 19 flat bars at 1 plus an uptick to 2; exactly the
RSI-reclaim rule passes. -/
def dfA : Df :=
  ⟨List.replicate 19 (mkCandle 1 5000) ++ [mkCandle 2 5000], true, some 1, true,
   30000, true, none⟩

theorem dfA_ema : rule_ema_cross dfA = some (false, [("vol_mult", some 1)]) := by
  norm_num [rule_ema_cross, emaCrossCross, emaCrossVavgRaw, emaCrossVol, orOne, odiv,
    ema, emaAux, rollingApply, allSome, meanF, ilocb, dfA, Df.closes, Df.volumeUsd,
    mkCandle, List.range_succ, List.replicate_succ, Option.bind, VOL_MULT_CONFIRM]

theorem dfA_boll : rule_boll_breakout dfA = some (false, []) :=
  boll_inert_of_short dfA (by norm_num [dfA]) (by norm_num [dfA])

theorem dfA_rsi :
    rule_rsi_reclaim dfA = some (true, [("rsi", some (50000000000 / 500000007))]) := by
  norm_num [rule_rsi_reclaim, rsi, rsiAvgGain, rsiAvgLoss, rollingApply, diffL,
    clipLow0, allSome, meanF, odiv, ilocb, dfA, Df.closes, mkCandle,
    List.range_succ, List.replicate_succ, Option.bind]

theorem dfA_obv : rule_obv_leads dfA = some (false, []) := by
  norm_num [rule_obv_leads, obv, signQ, diffL, rollingApply, allSome, maxF, ilocb,
    dfA, Df.closes, Df.volumes, mkCandle, List.range_succ, List.replicate_succ,
    Option.bind]

theorem dfA_mcap : rule_mcap_roc dfA = some (false, []) := by
  norm_num [rule_mcap_roc, dfA]

theorem dfA_guards : guards dfA = some true := by
  norm_num [guards, guardsVolOk, guardsVavg, guardsVolCol, guardsLiqOk, rollingApply,
    allSome, meanF, ilocb, dfA, Df.volumeUsd, mkCandle, List.range_succ,
    List.replicate_succ, MIN_ABS_VOLUME_USD, MIN_LIQ_USD]

theorem dfA_hits : hitsOf dfA = ["rule_rsi_reclaim"] := by
  simp [hitsOf, hitsOver, ruleList, handleRule, dfA_ema, dfA_boll, dfA_rsi,
    dfA_obv, dfA_mcap]

/-- C6 witness frame B: 17 flat bars at 2, a three-bar decline, then a jump
to 3 on doubled volume; exactly the EMA-cross and RSI-reclaim rules pass. -/
def dfB : Df :=
  ⟨List.replicate 17 (mkCandle 2 5000) ++
     [mkCandle (19/10) 5000, mkCandle (9/5) 5000, mkCandle (17/10) 5000,
      mkCandle 3 9000],
   true, some 1, true, 30000, true, none⟩

theorem dfB_ema : rule_ema_cross dfB = some (true, [("vol_mult", some (45/26))]) := by
  norm_num [rule_ema_cross, emaCrossCross, emaCrossVavgRaw, emaCrossVol, orOne, odiv,
    ema, emaAux, rollingApply, allSome, meanF, ilocb, dfB, Df.closes, Df.volumeUsd,
    mkCandle, List.range_succ, List.replicate_succ, Option.bind, VOL_MULT_CONFIRM]

theorem dfB_boll : rule_boll_breakout dfB = some (false, []) :=
  boll_inert_of_short dfB (by norm_num [dfB]) (by norm_num [dfB])

theorem dfB_rsi :
    rule_rsi_reclaim dfB = some (true, [("rsi", some (325 / 4))]) := by
  norm_num [rule_rsi_reclaim, rsi, rsiAvgGain, rsiAvgLoss, rollingApply, diffL,
    clipLow0, allSome, meanF, odiv, ilocb, dfB, Df.closes, mkCandle,
    List.range_succ, List.replicate_succ, Option.bind]

theorem dfB_obv : rule_obv_leads dfB = some (false, []) := by
  norm_num [rule_obv_leads, obv, signQ, diffL, rollingApply, allSome, maxF, ilocb,
    dfB, Df.closes, Df.volumes, mkCandle, List.range_succ, List.replicate_succ,
    Option.bind]

theorem dfB_mcap : rule_mcap_roc dfB = some (false, []) := by
  norm_num [rule_mcap_roc, dfB]

theorem dfB_guards : guards dfB = some true := by
  norm_num [guards, guardsVolOk, guardsVavg, guardsVolCol, guardsLiqOk, rollingApply,
    allSome, meanF, ilocb, dfB, Df.volumeUsd, mkCandle, List.range_succ,
    List.replicate_succ, MIN_ABS_VOLUME_USD, MIN_LIQ_USD]

theorem dfB_hits : hitsOf dfB = ["rule_ema_cross", "rule_rsi_reclaim"] := by
  simp [hitsOf, hitsOver, ruleList, handleRule, dfB_ema, dfB_boll, dfB_rsi,
    dfB_obv, dfB_mcap]

/-- Witness for C6: frame A (one passing rule) yields no alert; frame B (two
passing rules) yields one alert whose signal names are in rule evaluation
order. -/
theorem c6_witness :
    alertFor "A" dfA = none ∧
    (∃ a, alertFor "B" dfB = some a ∧
      a.signals = ["rule_ema_cross", "rule_rsi_reclaim"]) := by
  constructor
  · exact (c6_aggregation dfA "A" dfA_guards).1
      (by rw [dfA_hits]; rfl)
  · obtain ⟨a, ha, hs⟩ := (c6_aggregation dfB "B" dfB_guards).2.1
      (by rw [dfB_hits]; rfl)
    exact ⟨a, ha, by rw [hs, dfB_hits]⟩

/-! ### C3: a per-pair exception outside the rule loop aborts the cycle -/

def pBad : PairIn :=
  ⟨some "A1", none, some "S1", none, LiqVal.num 5, some 1, none, none,
   Except.ok (List.replicate 60 (mkCandle 1 5000))⟩

def pGood : PairIn :=
  ⟨some "A2", none, some "S2", none, LiqVal.obj none none, some 1, none, none,
   Except.ok []⟩

theorem processPair_pBad : processPair pBad = none := by
  norm_num [processPair, addrTruthy, truthyS, pBad, lastN, LOOKBACK, enrich]
  intro h
  exact absurd h (by decide)

theorem processPair_pGood : processPair pGood = some none := by
  norm_num [processPair, addrTruthy, truthyS, pGood, lastN, LOOKBACK]

theorem cons_map_range (k n : ℕ) :
    k :: (List.range n).map (fun x => k + 1 + x) =
      (List.range (n + 1)).map (fun x => k + x) := by
  rw [List.range_succ_eq_map, List.map_cons, List.map_map]
  have hc : (fun x => k + x) ∘ Nat.succ = fun x => k + 1 + x := by
    funext x
    simp only [Function.comp_apply]
    omega
  rw [hc]
  norm_num

/-- Counterexample for C3: in a two-pair cycle whose first pair raises
inside `enrich_with_snapshot` (its snapshot carries a bare-number liquidity
entry), the cycle aborts at position 0: position 1 is never reached, no
alerts are emitted, and the exception escapes to `main`. -/
theorem c3_counterexample : scan_once [pBad, pGood] = ⟨[0], [], true⟩ := by
  unfold scan_once PAIRS_PER_SCAN
  rw [List.take_cons_succ, List.take_cons_succ]
  unfold scanGo
  rw [processPair_pBad]

theorem scanGo_abort (l : List PairIn) :
    ∀ (k i : ℕ) (h : i < l.length),
      processPair (l.get ⟨i, h⟩) = none →
      (∀ j (hj : j < l.length), j < i → processPair (l.get ⟨j, hj⟩) ≠ none) →
      (scanGo k l).reached = (List.range (i + 1)).map (k + ·) ∧
      (scanGo k l).aborted = true := by
  induction l with
  | nil => intro k i h; cases h
  | cons p rest ih =>
    intro k i h hi hbefore
    cases i with
    | zero =>
      have hp : processPair p = none := hi
      unfold scanGo
      rw [hp]
      exact ⟨by simp [List.range_succ], rfl⟩
    | succ j =>
      have hp : processPair p ≠ none := hbefore 0 (by omega) (by omega)
      cases hpp : processPair p with
      | none => exact absurd hpp hp
      | some a =>
        unfold scanGo
        rw [hpp]
        have hjr : j < rest.length := by simpa using h
        obtain ⟨hr, ha⟩ := ih (k + 1) j hjr hi
          (fun m hm hmj => hbefore (m + 1) (by omega) (by omega))
        refine ⟨?_, ha⟩
        show k :: (scanGo (k + 1) rest).reached = _
        rw [hr]
        exact cons_map_range k (j + 1)

/-- C3 amended: an unexpected exception while evaluating pair `i` outside
the rule loop (fetch, enrichment, guard, alert construction) terminates the
cycle: exactly pairs `0..i` are reached and the cycle is marked aborted (the
exception is caught in `main`, which proceeds to the next cycle after the
sleep). -/
theorem c3_cycle_abort (ps : List PairIn) (i : ℕ)
    (h : i < (ps.take PAIRS_PER_SCAN).length)
    (hi : processPair ((ps.take PAIRS_PER_SCAN).get ⟨i, h⟩) = none)
    (hbefore : ∀ j (hj : j < (ps.take PAIRS_PER_SCAN).length), j < i →
      processPair ((ps.take PAIRS_PER_SCAN).get ⟨j, hj⟩) ≠ none) :
    (scan_once ps).reached = List.range (i + 1) ∧
    (scan_once ps).aborted = true := by
  obtain ⟨hr, ha⟩ := scanGo_abort (ps.take PAIRS_PER_SCAN) 0 i h hi hbefore
  refine ⟨?_, ha⟩
  unfold scan_once
  rw [hr]
  simp

/-- Witness for the amended C3 at the concrete two-pair cycle. -/
theorem c3_witness :
    (scan_once [pBad, pGood]).reached = List.range 1 ∧
    (scan_once [pBad, pGood]).aborted = true :=
  c3_cycle_abort [pBad, pGood] 0 (by norm_num [PAIRS_PER_SCAN])
    (by rw [show ((([pBad, pGood]).take PAIRS_PER_SCAN).get
        ⟨0, by norm_num [PAIRS_PER_SCAN]⟩) = pBad from rfl]; exact processPair_pBad)
    (fun j hj hj0 => absurd hj0 (by omega))

/-! ### C4: the Bollinger σ is the SAMPLE standard deviation, not population -/

/-- C4 amended, general form: `bollinger(series, 20, 2)` is undefined before
20 points, and from the 20th point on returns `middle` = the trailing 20-bar
mean, `upper/lower = middle ± 2·σ` where `σ = √(Σ(x-μ)²/19)` is the SAMPLE
(ddof = 1) standard deviation of the trailing window — not the population
standard deviation the claim states. -/
theorem c4_bollinger_sample_std (xs : List ℚ) (i : ℕ) (h : i < xs.length) :
    (i + 1 < 20 →
      (bollinger xs 20 2).1.get? i = some none ∧
      (bollinger xs 20 2).2.1.get? i = some none ∧
      (bollinger xs 20 2).2.2.get? i = some none) ∧
    (20 ≤ i + 1 →
      (bollinger xs 20 2).1.get? i =
        some (some ((meanF 20 ((xs.take (i + 1)).drop (i + 1 - 20)) : ℚ) : ℝ)) ∧
      (bollinger xs 20 2).2.1.get? i =
        some (some (((meanF 20 ((xs.take (i + 1)).drop (i + 1 - 20)) : ℚ) : ℝ) +
          2 * Real.sqrt ((varSampF 20 ((xs.take (i + 1)).drop (i + 1 - 20)) : ℚ) : ℝ))) ∧
      (bollinger xs 20 2).2.2.get? i =
        some (some (((meanF 20 ((xs.take (i + 1)).drop (i + 1 - 20)) : ℚ) : ℝ) -
          2 * Real.sqrt ((varSampF 20 ((xs.take (i + 1)).drop (i + 1 - 20)) : ℚ) : ℝ)))) := by
  have hma : ((rollingMean 20 xs).map (Option.map (fun q : ℚ => (q : ℝ)))).get? i =
      some ((if 20 ≤ i + 1 then some (meanF 20 ((xs.take (i + 1)).drop (i + 1 - 20)))
             else none).map (fun q : ℚ => (q : ℝ))) := by
    rw [List.get?_map]
    unfold rollingMean
    rw [rollingApply_get?_all _ _ _ _ h, Option.map_some']
  have hsd : (rollingStd 20 xs).get? i =
      some ((if 20 ≤ i + 1 then some (varSampF 20 ((xs.take (i + 1)).drop (i + 1 - 20)))
             else none).map (fun q : ℚ => Real.sqrt (q : ℝ))) := by
    unfold rollingStd rollingVarSamp
    rw [List.get?_map, rollingApply_get?_all _ _ _ _ h, Option.map_some']
  constructor
  · intro hlt
    have hni : ¬ (20 ≤ i + 1) := by omega
    rw [if_neg hni] at hma hsd
    refine ⟨?_, ?_, ?_⟩
    · show ((rollingMean 20 xs).map (Option.map (fun q : ℚ => (q : ℝ)))).get? i = some none
      simpa using hma
    · show (List.zipWith (omap2R fun m s => m + ((2 : ℚ) : ℝ) * s)
          ((rollingMean 20 xs).map (Option.map (fun q : ℚ => (q : ℝ))))
          (rollingStd 20 xs)).get? i = some none
      rw [get?_zipWith, hma, hsd]
      rfl
    · show (List.zipWith (omap2R fun m s => m - ((2 : ℚ) : ℝ) * s)
          ((rollingMean 20 xs).map (Option.map (fun q : ℚ => (q : ℝ))))
          (rollingStd 20 xs)).get? i = some none
      rw [get?_zipWith, hma, hsd]
      rfl
  · intro hge
    rw [if_pos hge] at hma hsd
    refine ⟨?_, ?_, ?_⟩
    · show ((rollingMean 20 xs).map (Option.map (fun q : ℚ => (q : ℝ)))).get? i = _
      simpa using hma
    · show (List.zipWith (omap2R fun m s => m + ((2 : ℚ) : ℝ) * s)
          ((rollingMean 20 xs).map (Option.map (fun q : ℚ => (q : ℝ))))
          (rollingStd 20 xs)).get? i = _
      rw [get?_zipWith, hma, hsd]
      norm_num [omap2R]
    · show (List.zipWith (omap2R fun m s => m - ((2 : ℚ) : ℝ) * s)
          ((rollingMean 20 xs).map (Option.map (fun q : ℚ => (q : ℝ))))
          (rollingStd 20 xs)).get? i = _
      rw [get?_zipWith, hma, hsd]
      norm_num [omap2R]

def xs4 : List ℚ := List.replicate 19 1 ++ [21]

theorem xs4_mean : meanF 20 ((xs4.take 20).drop 0) = 2 := by
  norm_num [xs4, meanF, List.take_append, List.sum_append, List.sum_replicate,
    nsmul_eq_mul, List.take_replicate]

theorem xs4_varSamp : varSampF 20 ((xs4.take 20).drop 0) = 20 := by
  norm_num [xs4, varSampF, List.take_append, List.map_append, List.map_replicate,
    List.sum_append, List.sum_replicate, nsmul_eq_mul, List.take_replicate]

/-- Counterexample for C4: on nineteen 1s followed by a 21, the trailing
window has mean 2, population variance 19 and sample variance 20.  The
source's upper band is `2 + 2·√20`; the claimed population-σ band would be
`2 + 2·√19`, and the two band series differ. -/
theorem c4_counterexample :
    (bollinger xs4 20 2).2.1.get? 19 = some (some ((2 : ℝ) + 2 * Real.sqrt 20)) ∧
    (bollingerPop xs4 20 2).2.1.get? 19 = some (some ((2 : ℝ) + 2 * Real.sqrt 19)) ∧
    (bollinger xs4 20 2).2.1 ≠ (bollingerPop xs4 20 2).2.1 := by
  have h19 : (19 : ℕ) < xs4.length := by norm_num [xs4]
  have h1 : (bollinger xs4 20 2).2.1.get? 19 = some (some ((2 : ℝ) + 2 * Real.sqrt 20)) := by
    have := ((c4_bollinger_sample_std xs4 19 h19).2 (by omega)).2.1
    rw [xs4_mean, xs4_varSamp] at this
    rw [this]
    norm_num
  have hv : ((((xs4.take 20).drop 0).map
        (fun x => (x - ((xs4.take 20).drop 0).sum / (20 : ℚ)) ^ 2)).sum) / (20 : ℚ) = 19 := by
    norm_num [xs4, List.take_append, List.map_append, List.map_replicate,
      List.sum_append, List.sum_replicate, nsmul_eq_mul, List.take_replicate]
  have h2 : (bollingerPop xs4 20 2).2.1.get? 19 = some (some ((2 : ℝ) + 2 * Real.sqrt 19)) := by
    show (List.zipWith (omap2R fun m s => m + ((2 : ℚ) : ℝ) * s)
        ((rollingMean 20 xs4).map (Option.map (fun q : ℚ => (q : ℝ))))
        ((rollingApply 20 (fun l => (l.map (fun x => (x - l.sum / (20 : ℚ)) ^ 2)).sum / (20 : ℚ))
            (xs4.map some)).map (Option.map fun q : ℚ => Real.sqrt (q : ℝ)))).get? 19 =
      some (some ((2 : ℝ) + 2 * Real.sqrt 19))
    rw [get?_zipWith, List.get?_map, List.get?_map]
    unfold rollingMean
    rw [rollingApply_get?_all _ _ _ _ h19, rollingApply_get?_all _ _ _ _ h19]
    rw [if_pos (by omega), if_pos (by omega)]
    simp only [show (19 + 1 - 20 : ℕ) = 0 from rfl, show (19 + 1 : ℕ) = 20 from rfl]
    rw [xs4_mean, hv]
    norm_num [omap2R]
  refine ⟨h1, h2, ?_⟩
  intro heq
  rw [heq] at h1
  rw [h1] at h2
  have hs : Real.sqrt 20 = Real.sqrt 19 := by
    have := Option.some.inj (Option.some.inj h2)
    linarith
  have := (Real.sqrt_inj (by norm_num) (by norm_num)).mp hs
  norm_num at this

/-- Witness for the amended C4 at the concrete window: undefined at bar 0,
and the sample-σ bands at bar 19. -/
theorem c4_witness :
    (bollinger xs4 20 2).1.get? 0 = some none ∧
    (bollinger xs4 20 2).2.2.get? 19 =
      some (some ((2 : ℝ) - 2 * Real.sqrt 20)) := by
  constructor
  · exact ((c4_bollinger_sample_std xs4 0 (by norm_num [xs4])).1 (by omega)).1
  · have := ((c4_bollinger_sample_std xs4 19 (by norm_num [xs4])).2 (by omega)).2.2
    rw [xs4_mean, xs4_varSamp] at this
    rw [this]
    norm_num

/-! ### C2: what population of bandwidths feeds the 20th percentile -/

/-- Closed form of one bandwidth entry: `(up-dn)/ma = 4·√var/ma`, NaN when
either input is NaN or the middle band is zero. -/
noncomputable def bwEntry : Option ℚ → Option ℚ → Option ℝ
  | some m, some v => if m = 0 then none else some (4 * Real.sqrt (v : ℝ) / (m : ℝ))
  | _, _ => none

theorem zip_bw_eq (l1 l2 : List (Option ℚ)) :
    List.zipWith odivR
      (List.zipWith (omap2R (· - ·))
        (List.zipWith (omap2R fun m s => m + ((2 : ℚ) : ℝ) * s)
          (l1.map (Option.map (fun q : ℚ => (q : ℝ))))
          (l2.map (Option.map fun q : ℚ => Real.sqrt (q : ℝ))))
        (List.zipWith (omap2R fun m s => m - ((2 : ℚ) : ℝ) * s)
          (l1.map (Option.map (fun q : ℚ => (q : ℝ))))
          (l2.map (Option.map fun q : ℚ => Real.sqrt (q : ℝ)))))
      (l1.map (Option.map (fun q : ℚ => (q : ℝ)))) =
    List.zipWith bwEntry l1 l2 := by
  induction l1 generalizing l2 with
  | nil => cases l2 <;> rfl
  | cons a t ih =>
    cases l2 with
    | nil => rfl
    | cons b t2 =>
      simp only [List.map_cons, List.zipWith_cons_cons]
      rw [ih t2]
      congr 1
      cases a with
      | none => cases b <;> rfl
      | some m =>
        cases b with
        | none => rfl
        | some v =>
          show odivR (some ((((m : ℝ) + ((2 : ℚ) : ℝ) * Real.sqrt (v : ℝ)) -
              ((m : ℝ) - ((2 : ℚ) : ℝ) * Real.sqrt (v : ℝ))))) (some (m : ℝ)) =
            bwEntry (some m) (some v)
          simp only [odivR, bwEntry]
          by_cases hm : m = 0
          · rw [if_pos (by exact_mod_cast hm), if_pos hm]
          · rw [if_neg (by exact_mod_cast hm), if_neg hm]
            congr 1
            push_cast
            ring

theorem bollBw_eq (df : Df) :
    bollBw df =
      List.zipWith bwEntry (rollingMean 20 df.closes) (rollingVarSamp 20 df.closes) := by
  simp only [bollBw, bollinger, rollingStd]
  exact zip_bw_eq _ _

/-- The C2 failing input: 48 flat bars at 1 followed by an uptick to 2
(49 bars, so exactly one bar — the last — has a full 30-window of valid
bandwidths). -/
def dfC : Df :=
  ⟨List.replicate 48 (mkCandle 1 5000) ++ [mkCandle 2 5000], true, some 1, true,
   30000, true, none⟩

theorem dfC_mean : rollingMean 20 dfC.closes =
    List.replicate 19 none ++ (List.replicate 29 (some 1) ++ [some (21/20)]) := by
  norm_num [rollingMean, rollingApply, allSome, meanF, dfC, Df.closes, mkCandle,
    List.range_succ, List.replicate_succ]

theorem dfC_var : rollingVarSamp 20 dfC.closes =
    List.replicate 19 none ++ (List.replicate 29 (some 0) ++ [some (1/20)]) := by
  norm_num [rollingVarSamp, rollingApply, allSome, varSampF, dfC, Df.closes, mkCandle,
    List.range_succ, List.replicate_succ]

/-- The single nonzero bandwidth value of `dfC`: `4·√(1/20) / (21/20)`. -/
noncomputable def Bc : ℝ := 4 * Real.sqrt ((1/20 : ℚ) : ℝ) / ((21/20 : ℚ) : ℝ)

theorem Bc_pos : 0 < Bc := by
  unfold Bc
  apply div_pos
  · have : (0 : ℝ) < Real.sqrt ((1/20 : ℚ) : ℝ) := by
      rw [Real.sqrt_pos]
      norm_num
    linarith
  · norm_num

theorem dfC_bw : bollBw dfC =
    List.replicate 19 (none : Option ℝ) ++ (List.replicate 29 (some (0 : ℝ)) ++ [some Bc]) := by
  rw [bollBw_eq, dfC_mean, dfC_var]
  norm_num [bwEntry, Bc, List.replicate_succ, Real.sqrt_zero]

theorem dfC_count : bollCountLast dfC = 30 := by
  simp only [bollCountLast]
  rw [dfC_bw]
  rfl

theorem dfC_dropna : bollApplyDropna dfC = [Bc] := by
  simp only [bollApplyDropna]
  rw [dfC_bw]
  rfl

theorem dfC_ilocb_bw : ilocb (bollBw dfC) 1 = some (some Bc) := by
  rw [dfC_bw]
  rfl

theorem dfC_pct : bollPct20 dfC = some Bc := by
  unfold bollPct20
  rw [if_pos (by rw [dfC_count]), dfC_dropna]
  rfl

theorem dfC_squeeze : bollSqueeze dfC := by
  unfold bollSqueeze
  rw [dfC_pct, dfC_ilocb_bw]

theorem dfC_up : ilocb (bollinger dfC.closes 20 2).2.1 1 =
    some (some (((21/20 : ℚ) : ℝ) + ((2 : ℚ) : ℝ) * Real.sqrt ((1/20 : ℚ) : ℝ))) := by
  have hup : (bollinger dfC.closes 20 2).2.1 =
      List.zipWith (omap2R fun m s => m + ((2 : ℚ) : ℝ) * s)
        ((rollingMean 20 dfC.closes).map (Option.map (fun q : ℚ => (q : ℝ))))
        ((rollingVarSamp 20 dfC.closes).map (Option.map fun q : ℚ => Real.sqrt (q : ℝ))) := by
    simp only [bollinger, rollingStd]
  rw [hup, dfC_mean, dfC_var]
  rfl

theorem dfC_breakout : bollBreakout dfC := by
  unfold bollBreakout
  rw [dfC_up]
  have hc : ilocb dfC.closes 1 = some 2 := by rfl
  rw [hc]
  have hs : Real.sqrt ((1/20 : ℚ) : ℝ) < 19/40 := by
    rw [show (((1 : ℚ)/20 : ℚ) : ℝ) = (1/20 : ℝ) by push_cast; ring,
        Real.sqrt_lt' (by norm_num)]
    norm_num
  show (((some (2 : ℚ)).getD 0 : ℚ) : ℝ) > _
  rw [Option.getD_some]
  push_cast
  linarith

theorem insertR_zero_replicate (n : ℕ) (x : ℝ) (hx : 0 ≤ x) :
    insertR 0 (List.replicate n 0 ++ [x]) = List.replicate (n + 1) 0 ++ [x] := by
  cases n with
  | zero =>
    show insertR 0 [x] = [0, x]
    unfold insertR
    rw [if_pos hx]
  | succ n =>
    show insertR 0 (0 :: (List.replicate n 0 ++ [x])) = _
    unfold insertR
    rw [if_pos (le_refl (0 : ℝ))]
    rfl

theorem sortR_zero_replicate (n : ℕ) (x : ℝ) (hx : 0 ≤ x) :
    sortR (List.replicate n 0 ++ [x]) = List.replicate n 0 ++ [x] := by
  induction n with
  | zero => rfl
  | succ n ih =>
    show sortR (0 :: (List.replicate n 0 ++ [x])) = _
    unfold sortR
    rw [ih, insertR_zero_replicate n x hx]

theorem dfC_filterMap : (bollBw dfC).filterMap id =
    List.replicate 29 (0 : ℝ) ++ [Bc] := by
  rw [dfC_bw]
  rfl

theorem dfC_last30 : lastN 30 ((bollBw dfC).filterMap id) =
    List.replicate 29 (0 : ℝ) ++ [Bc] := by
  rw [dfC_filterMap]
  rfl

theorem dfC_spec_pct : nanPercentile20 (List.replicate 29 (0 : ℝ) ++ [Bc]) = some 0 := by
  have hsort := sortR_zero_replicate 29 Bc (le_of_lt Bc_pos)
  unfold nanPercentile20
  split
  · simp_all
  · rw [hsort]
    norm_num [List.replicate_succ]

theorem dfC_spec_squeeze_false : ¬ specSqueezeLast30 dfC := by
  unfold specSqueezeLast30
  have hp : nanPercentile20 (lastN 30 ((bollBw dfC).filterMap id)) = some 0 := by
    rw [dfC_last30]
    exact dfC_spec_pct
  rw [hp, dfC_ilocb_bw]
  intro h
  have := Bc_pos
  linarith

/-- C2: evaluation of `rule_boll_breakout` at the failing 49-bar input.
The code declares a squeeze (and fires, since the close breaks the upper
band): its 20th percentile is taken over the bandwidths of ALL bars whose
trailing 30 bandwidths are valid — here only the last bar, so
`pct20 = bw[-1]` and `bw[-1] ≤ pct20` holds.  The claimed (and
code-commented) percentile over the LAST 30 bandwidth values is 0 (29 of
those bandwidths are 0), and the current bandwidth is strictly above it, so
under the claim the squeeze must NOT be declared. -/
theorem c2_percentile_over_all_bars :
    rule_boll_breakout dfC = some (true, []) ∧ ¬ specSqueezeLast30 dfC := by
  constructor
  · unfold rule_boll_breakout
    rw [if_neg (show ¬ dfC.candles = [] by norm_num [dfC]),
        if_pos ⟨dfC_squeeze, dfC_breakout⟩]
  · exact dfC_spec_squeeze_false

end PumpScanner
